import Mathlib

/-!
Verification development for the qovery-engine excerpt.

Shallow embedding conventions:
  * Rust strings are embedded as Lean `String` (or `List Char` where structural
    induction over characters is needed; the correspondence is noted per definition).
  * Fallible Rust code (`Result<T, E>`) is embedded as `Except E T`.
  * Calls to external systems (DNS resolvers, kubectl, the filesystem, helm) are
    embedded as explicit oracle parameters: a function giving the outcome of each
    external call, so every theorem quantifies over all possible external behaviours.
  * Side effects that the claims mention (progress events to listeners, secrets
    created or deleted) are returned as explicit traces.
-/

namespace QoveryEngine

/-! ## Readiness prober (src/cloud_provider/utilities.rs)

The prober uses the `retry` crate: `retry::retry(iterable, op)` executes `op` once,
and then, for each delay yielded by the iterable, sleeps that delay and executes
`op` again; it stops at the first `OperationResult::Ok` and returns `Err` when the
operation still asks for a retry after the delay iterator is exhausted.  Hence a
delay iterator of `n` delays yields at most `n + 1` executions of the operation.

`dns_resolvers()` builds a pool of exactly 4 resolvers
(google, cloudflare, quad9, system), so `resolvers.len() == 4`.

Both `check_cname_for` and `check_domain_for` create a `next_resolver` closure over
a counter `ix` starting at 0: each call returns `resolvers[ix % resolvers.len()]`
and increments `ix`; the retry operation calls it exactly once per execution, so
the counter coincides with the 0-based attempt index. -/

/-- Result of one `retry::retry` run.  `tries` counts executions of the operation,
`sleepsMs` the delays slept between executions (in order), `queried` the resolver
index used by each execution (in order), `value` is `some` on success and `none`
when the retry budget was exhausted. -/
structure RetryResult (R : Type) where
  tries : Nat
  sleepsMs : List Nat
  queried : List Nat
  value : Option R
  deriving Repr, DecidableEq

/-- Embedding of `retry::retry(Fixed::from_millis(delayMs).take(...), op)` where the
operation draws the next resolver (`ix % n`, then `ix` is incremented) and performs
one lookup whose outcome is `env ix` (the environment decides each attempt).
`remaining` is the number of delays still available; the source starts with
`remaining = 30` (CNAME) or `remaining = 100` (plain domain) and `ix = 0`. -/
def retryLoop {R : Type} (env : Nat → Option R) (n delayMs : Nat) :
    Nat → Nat → RetryResult R
  | 0, ix =>
    match env ix with
    | some r => { tries := 1, sleepsMs := [], queried := [ix % n], value := some r }
    | none => { tries := 1, sleepsMs := [], queried := [ix % n], value := none }
  | rem + 1, ix =>
    match env ix with
    | some r => { tries := 1, sleepsMs := [], queried := [ix % n], value := some r }
    | none =>
      let rest := retryLoop env n delayMs rem (ix + 1)
      { tries := rest.tries + 1
        sleepsMs := delayMs :: rest.sleepsMs
        queried := ix % n :: rest.queried
        value := rest.value }

/-- Progress level of an emitted listener event (`ProgressLevel::Info` / `Warn`). -/
inductive PLevel where
  | Info
  | Warn
  deriving Repr, DecidableEq

/-- Tags identifying the progress events the prober and the router check emit. -/
inductive EventTag where
  | checkingCname
  | cnameRetry
  | cnameResolved
  | cnameFailed
  | domainChecking
  | domainRetry
  | domainReady
  | domainFailed
  | invalidCname
  deriving Repr, DecidableEq

/-- One progress event sent to the listeners: its level, which message it is,
and the domain it concerns. -/
structure Event where
  level : PLevel
  tag : EventTag
  subject : String
  deriving Repr, DecidableEq

/-- The number of failed executions in a retry run: every execution except a final
successful one sent a retry progress message in the source. -/
def RetryResult.failures {R : Type} (r : RetryResult R) : Nat :=
  match r.value with
  | some _ => r.tries - 1
  | none => r.tries

/-- Embedding of `check_cname_for` (utilities.rs lines 361-433).  The resolver pool
has 4 entries; the delay iterator is `Fixed::from_millis(5000).take(6 * 5)`, so 30
delays.  On every failed execution an Info retry event is sent; on success an Info
resolved event; on exhaustion a Warn event.  The function always returns
`Ok(cname_to_check)` (it returns the input string even when resolution succeeded). -/
def check_cname_for (env : Nat → Option String) (cname_to_check : String) :
    RetryResult String × List Event × Except String String :=
  let r := retryLoop env 4 5000 30 0
  let headEv : Event := { level := .Info, tag := .checkingCname, subject := cname_to_check }
  let retryEvs : List Event :=
    List.replicate r.failures { level := .Info, tag := .cnameRetry, subject := cname_to_check }
  let tailEv : Event :=
    match r.value with
    | some _ => { level := .Info, tag := .cnameResolved, subject := cname_to_check }
    | none => { level := .Warn, tag := .cnameFailed, subject := cname_to_check }
  (r, headEv :: retryEvs ++ [tailEv], Except.ok cname_to_check)

/-- Per-domain part of `check_domain_for` (utilities.rs lines 445-535): one retry
run with 100 delays of 3000 ms against the 4-resolver pool (the `ix` counter is
declared inside the per-domain loop, so it restarts at 0 for every domain). -/
def checkOneDomain {IpInfo : Type} (lookup : Nat → Option IpInfo) (domain : String) :
    RetryResult IpInfo × List Event :=
  let r := retryLoop lookup 4 3000 100 0
  let headEv : Event := { level := .Info, tag := .domainChecking, subject := domain }
  let retryEvs : List Event :=
    List.replicate r.failures { level := .Info, tag := .domainRetry, subject := domain }
  let tailEv : Event :=
    match r.value with
    | some _ => { level := .Info, tag := .domainReady, subject := domain }
    | none => { level := .Warn, tag := .domainFailed, subject := domain }
  (r, headEv :: retryEvs ++ [tailEv])

/-- Embedding of `check_domain_for` (utilities.rs lines 435-539).  `lookup d i` is
the outcome of attempt `i` of the `lookup_ip` call for domain `d`.  The function
processes the domains in order and always returns `Ok(())`. -/
def check_domain_for {IpInfo : Type} (lookup : String → Nat → Option IpInfo)
    (domains_to_check : List String) :
    List (String × RetryResult IpInfo) × List Event × Except String Unit :=
  let runs := domains_to_check.map (fun d => (d, (checkOneDomain (lookup d) d).1))
  let events := domains_to_check.flatMap (fun d => (checkOneDomain (lookup d) d).2)
  (runs, events, Except.ok ())

/-! Basic lemmas about `retryLoop`. -/

/-- If every attempt fails, a run with `remaining` delays executes the operation
`remaining + 1` times and sleeps `remaining` fixed delays. -/
theorem retryLoop_never_succeeds {R : Type} (env : Nat → Option R) (n delayMs : Nat)
    (h : ∀ i, env i = none) :
    ∀ remaining ix, (retryLoop env n delayMs remaining ix).tries = remaining + 1 ∧
      (retryLoop env n delayMs remaining ix).sleepsMs = List.replicate remaining delayMs ∧
      (retryLoop env n delayMs remaining ix).value = none := by
  intro remaining
  induction remaining with
  | zero =>
    intro ix
    simp [retryLoop, h ix]
  | succ rem ih =>
    intro ix
    have hrec := ih (ix + 1)
    simp only [retryLoop, h ix]
    refine ⟨?_, ?_, ?_⟩
    · simp [hrec.1]
    · simp [List.replicate_succ, hrec.2.1]
    · simp [hrec.2.2]

/-- The resolver queried by execution `i` of a run started at counter value `ix`
is `(ix + i) % n`: round robin over the pool. -/
theorem retryLoop_queried {R : Type} (env : Nat → Option R) (n delayMs : Nat) :
    ∀ remaining ix i, i < (retryLoop env n delayMs remaining ix).queried.length →
      (retryLoop env n delayMs remaining ix).queried.get? i = some ((ix + i) % n) := by
  intro remaining
  induction remaining with
  | zero =>
    intro ix i hi
    have h1 : (retryLoop env n delayMs 0 ix).queried = [ix % n] := by
      cases henv : env ix <;> simp [retryLoop, henv]
    rw [h1] at hi ⊢
    have h0 : i = 0 := by
      simp only [List.length_singleton] at hi
      omega
    subst h0
    simp
  | succ rem ih =>
    intro ix i hi
    cases henv : env ix with
    | some r =>
      have h1 : (retryLoop env n delayMs (rem + 1) ix).queried = [ix % n] := by
        simp [retryLoop, henv]
      rw [h1] at hi ⊢
      have h0 : i = 0 := by
        simp only [List.length_singleton] at hi
        omega
      subst h0
      simp
    | none =>
      have h1 : (retryLoop env n delayMs (rem + 1) ix).queried =
          ix % n :: (retryLoop env n delayMs rem (ix + 1)).queried := by
        simp [retryLoop, henv]
      rw [h1] at hi ⊢
      cases i with
      | zero => simp
      | succ j =>
        simp only [List.length_cons, Nat.succ_lt_succ_iff] at hi
        have hrec := ih (ix + 1) j hi
        have harith : ix + 1 + j = ix + (j + 1) := by omega
        rw [harith] at hrec
        simpa using hrec

/-- A retry run always executes the operation at least once. -/
theorem retryLoop_tries_pos {R : Type} (env : Nat → Option R) (n delayMs : Nat) :
    ∀ remaining ix, 0 < (retryLoop env n delayMs remaining ix).tries := by
  intro remaining ix
  cases remaining <;> cases henv : env ix <;> simp [retryLoop, henv]

/-! ## Claim C1 -/

/-- C1, counterexample: with a lookup that never succeeds, `check_cname_for`
executes 31 lookup attempts (not 30) and `check_domain_for` executes 101 lookup
attempts for its domain (not 100): the `retry` crate runs the operation once before
consuming the first delay, so `take(30)` and `take(100)` bound the sleeps, not the
attempts. -/
theorem check_cname_for_attempts_cex :
    ((check_cname_for (fun _ => none) "app.example.com").1.tries = 31 ∧
      (check_cname_for (fun _ => none) "app.example.com").1.tries ≠ 30) ∧
    (((check_domain_for (fun _ _ => (none : Option Unit)) ["app.example.com"]).1.map
        (fun p => p.2.tries)) = [101] ∧
      ((check_domain_for (fun _ _ => (none : Option Unit)) ["app.example.com"]).1.map
        (fun p => p.2.tries)) ≠ [100]) := by
  refine ⟨⟨?_, by decide⟩, ?_, by decide⟩ <;> rfl

/-- C1 (amended): for every CNAME readiness check in which the lookup never
succeeds, `check_cname_for` performs exactly 31 lookup attempts (one initial
attempt plus 30 retries) separated by 30 fixed 5-second delays, and for every
plain-domain check in which the lookup never succeeds, `check_domain_for` performs
exactly 101 lookup attempts per domain (one initial attempt plus 100 retries)
separated by 100 fixed 3-second delays, after which the retry budget is
exhausted. -/
theorem check_retry_budget {IpInfo : Type} (env : Nat → Option String) (cname : String)
    (lookup : String → Nat → Option IpInfo) (domains : List String)
    (henv : ∀ i, env i = none)
    (hlookup : ∀ d ∈ domains, ∀ i, lookup d i = none) :
    (check_cname_for env cname).1.tries = 31 ∧
    (check_cname_for env cname).1.sleepsMs = List.replicate 30 5000 ∧
    (check_cname_for env cname).1.value = none ∧
    ((check_domain_for lookup domains).1.map (fun p => p.2.tries)) =
      List.replicate domains.length 101 ∧
    ((check_domain_for lookup domains).1.map (fun p => p.2.sleepsMs)) =
      List.replicate domains.length (List.replicate 100 3000) ∧
    ((check_domain_for lookup domains).1.map (fun p => p.2.value)) =
      List.replicate domains.length none := by
  have hc := retryLoop_never_succeeds env 4 5000 henv 30 0
  refine ⟨hc.1, hc.2.1, hc.2.2, ?_, ?_, ?_⟩ <;>
  · show (List.map _ (domains.map fun d => (d, (checkOneDomain (lookup d) d).1))) = _
    rw [List.map_map, ← List.map_const]
    refine List.map_congr_left (fun d hd => ?_)
    have := retryLoop_never_succeeds (lookup d) 4 3000 (hlookup d hd) 100 0
    simp only [Function.comp, checkOneDomain, Function.const]
    first
      | exact this.1
      | exact this.2.1
      | exact this.2.2

/-- C1 (amended), witness: concrete never-succeeding lookups reach exactly those
budgets. -/
theorem check_retry_budget_witness :
    (check_cname_for (fun _ => none) "w.example.com").1.tries = 31 ∧
    ((check_domain_for (fun _ _ => (none : Option Unit)) ["w.example.com"]).1.map
      (fun p => p.2.tries)) = List.replicate 1 101 := by
  have h := check_retry_budget (fun _ => none) "w.example.com"
    (fun _ _ => (none : Option Unit)) ["w.example.com"]
    (fun _ => rfl) (fun _ _ _ => rfl)
  exact ⟨h.1, h.2.2.2.1⟩

/-! ## Claim C2 -/

/-- C2: for every input domain and every sequence of resolver outcomes,
`check_cname_for` returns `Ok` containing exactly the input domain string; when
the retry budget is exhausted it emits a warning-level progress event and never
returns `Err`; likewise `check_domain_for` always returns `Ok(())`, emitting a
warning-level event for each domain whose lookup budget was exhausted. -/
theorem check_never_errors {IpInfo : Type} (env : Nat → Option String) (cname : String)
    (lookup : String → Nat → Option IpInfo) (domains : List String) :
    (check_cname_for env cname).2.2 = Except.ok cname ∧
    ((check_cname_for env cname).1.value = none →
      ({ level := .Warn, tag := .cnameFailed, subject := cname } : Event) ∈
        (check_cname_for env cname).2.1) ∧
    (check_domain_for lookup domains).2.2 = Except.ok () ∧
    (∀ d ∈ domains, (checkOneDomain (lookup d) d).1.value = none →
      ({ level := .Warn, tag := .domainFailed, subject := d } : Event) ∈
        (check_domain_for lookup domains).2.1) := by
  refine ⟨rfl, ?_, rfl, ?_⟩
  · intro hnone
    have hval : (retryLoop env 4 5000 30 0).value = none := hnone
    simp [check_cname_for, hval]
  · intro d hd hnone
    have hval : (retryLoop (lookup d) 4 3000 100 0).value = none := hnone
    show _ ∈ List.flatMap _ _
    rw [List.mem_flatMap]
    refine ⟨d, hd, ?_⟩
    simp [checkOneDomain, hval]

/-- C2, witness: with a permanently failing resolver pool, both checks return
`Ok` of their input and emit the warning events. -/
theorem check_never_errors_witness :
    (check_cname_for (fun _ => none) "w.example.com").2.2 = Except.ok "w.example.com" ∧
    ({ level := .Warn, tag := .cnameFailed, subject := "w.example.com" } : Event) ∈
      (check_cname_for (fun _ => none) "w.example.com").2.1 ∧
    (check_domain_for (fun _ _ => (none : Option Unit)) ["w.example.com"]).2.2 =
      Except.ok () ∧
    ({ level := .Warn, tag := .domainFailed, subject := "w.example.com" } : Event) ∈
      (check_domain_for (fun _ _ => (none : Option Unit)) ["w.example.com"]).2.1 := by
  have h := check_never_errors (fun _ => none) "w.example.com"
    (fun _ _ => (none : Option Unit)) ["w.example.com"]
  have hmem : "w.example.com" ∈ ["w.example.com"] := List.mem_singleton.mpr rfl
  have hc : (check_cname_for (fun _ => (none : Option String)) "w.example.com").1.value
      = none :=
    (retryLoop_never_succeeds (fun _ => none) 4 5000 (fun _ => rfl) 30 0).2.2
  have hd : (checkOneDomain (fun _ => (none : Option Unit)) "w.example.com").1.value
      = none :=
    (retryLoop_never_succeeds (fun _ => none) 4 3000 (fun _ => rfl) 100 0).2.2
  exact ⟨h.1, h.2.1 hc, h.2.2.1, h.2.2.2 "w.example.com" hmem hd⟩

/-! ## Claim C6 -/

/-- C6: the resolver queried on attempt index `i` (0-based) is
`resolvers[i % 4]` (the pool built by `dns_resolvers` has 4 entries), in both
`check_cname_for` and, for every domain of the list, `check_domain_for` — whose
round-robin counter restarts at 0 for each domain. -/
theorem resolver_round_robin {IpInfo : Type} (env : Nat → Option String) (cname : String)
    (lookup : String → Nat → Option IpInfo) (domains : List String)
    (i : Nat) (hi : i < (check_cname_for env cname).1.queried.length)
    (p : String × RetryResult IpInfo) (hp : p ∈ (check_domain_for lookup domains).1)
    (j : Nat) (hj : j < p.2.queried.length) :
    (check_cname_for env cname).1.queried.get? i = some (i % 4) ∧
    p.2.queried.get? j = some (j % 4) := by
  constructor
  · have := retryLoop_queried env 4 5000 30 0 i hi
    simpa using this
  · obtain ⟨d, hd, rfl⟩ := List.mem_map.mp hp
    have := retryLoop_queried (lookup d) 4 3000 100 0 j hj
    simpa [checkOneDomain] using this

/-- C6, witness: on a concrete run (4 failing attempts for the CNAME check, one
domain in the plain check), attempt 2 goes to resolver 2 and the per-domain
counter starts again at resolver 0. -/
theorem resolver_round_robin_witness :
    (check_cname_for (fun i => if i < 4 then none else some "q.io") "w.example.com").1.queried.get? 2
      = some 2 ∧
    ((("w.example.com", (checkOneDomain (fun _ => (none : Option Unit)) "w.example.com").1)
        : String × RetryResult Unit)).2.queried.get? 0 = some 0 := by
  have h := resolver_round_robin (fun i => if i < 4 then none else some "q.io")
    "w.example.com" (fun _ _ => (none : Option Unit)) ["w.example.com"]
    2 (by decide)
    ("w.example.com", (checkOneDomain (fun _ => (none : Option Unit)) "w.example.com").1)
    (by simp [check_domain_for])
    0 (by decide)
  exact ⟨h.1, h.2⟩

/-! ## managed_db_name_sanitizer (utilities.rs lines 545-552)

The source computes `max_size - prefix.len()` (usize subtraction), builds
`prefix ++ name.replace("_", "").replace("-", "")`, and when the character count
exceeds the reduced budget truncates with a byte slice `new_name[..max_size]`.
Strings are embedded as `List Char`; `replace` of a single-character pattern by
the empty string is `List.filter`, and — for single-byte characters, part of the
hypotheses of claim C9 — the byte slice coincides with `List.take`. -/

/-- Embedding of `managed_db_name_sanitizer`. -/
def managed_db_name_sanitizer (max_size : Nat) (pfx name : List Char) : List Char :=
  let budget := max_size - pfx.length
  let new_name := pfx ++ (name.filter (fun c => c ≠ '_')).filter (fun c => c ≠ '-')
  if budget < new_name.length then new_name.take budget else new_name

/-! ## Claim C9 -/

/-- C9, counterexample: with `max_size = 5`, prefix `abc` (length 3 ≤ 5, all
single-byte) and name `x`, the result is `ab`, which does not start with the
prefix: the truncation budget `max_size - prefix.len()` can cut into the prefix
itself. -/
theorem managed_db_name_sanitizer_cex :
    managed_db_name_sanitizer 5 ['a', 'b', 'c'] ['x'] = ['a', 'b'] ∧
    ¬ ['a', 'b', 'c'] <+: managed_db_name_sanitizer 5 ['a', 'b', 'c'] ['x'] ∧
    (['a', 'b', 'c'] : List Char).length ≤ 5 := by
  refine ⟨by decide, ?_, by decide⟩
  intro h
  have hlen := h.length_le
  revert hlen
  decide

/-- C9 (amended): for every prefix and name in which `max_size` is at least twice
the length of the prefix, the sanitized name starts with the prefix, the part
contributed by the name contains no underscore and no dash, and the total length
is at most `max_size` minus the prefix length — not `max_size` itself, because the
prefix length is subtracted from the truncation budget even though the prefix is
included in the output. -/
theorem managed_db_name_sanitizer_spec (max_size : Nat) (pfx name : List Char)
    (h : 2 * pfx.length ≤ max_size) :
    pfx <+: managed_db_name_sanitizer max_size pfx name ∧
    (∀ c ∈ (managed_db_name_sanitizer max_size pfx name).drop pfx.length,
      c ≠ '_' ∧ c ≠ '-') ∧
    (managed_db_name_sanitizer max_size pfx name).length ≤ max_size - pfx.length := by
  have hbud : pfx.length ≤ max_size - pfx.length := by omega
  unfold managed_db_name_sanitizer
  set cleaned := (name.filter (fun c => c ≠ '_')).filter (fun c => c ≠ '-') with hcl
  have hclean : ∀ c ∈ cleaned, c ≠ '_' ∧ c ≠ '-' := by
    intro c hc
    rw [hcl] at hc
    have h1 := (List.mem_filter.mp (List.mem_of_mem_filter hc)).2
    have h2 := (List.mem_filter.mp hc).2
    exact ⟨by simpa using h1, by simpa using h2⟩
  by_cases hlt : max_size - pfx.length < (pfx ++ cleaned).length
  · simp only [hlt, if_pos]
    have htake : (pfx ++ cleaned).take (max_size - pfx.length) =
        pfx ++ cleaned.take (max_size - pfx.length - pfx.length) := by
      rw [List.take_append_eq_append_take, List.take_of_length_le hbud]
    refine ⟨?_, ?_, ?_⟩
    · rw [htake]
      exact ⟨_, rfl⟩
    · intro c hc
      rw [htake, List.drop_left] at hc
      exact hclean c (List.mem_of_mem_take hc)
    · rw [List.length_take]
      exact min_le_left _ _
  · simp only [hlt, if_neg, not_false_iff]
    refine ⟨⟨cleaned, rfl⟩, ?_, ?_⟩
    · intro c hc
      rw [List.drop_left] at hc
      exact hclean c hc
    · rw [List.length_append] at hlt ⊢
      omega

/-- C9 (amended), witness: `max_size = 10`, prefix `ab`, name `c_d-e`. -/
theorem managed_db_name_sanitizer_spec_witness :
    (2 * (['a', 'b'] : List Char).length ≤ 10) ∧
    ['a', 'b'] <+: managed_db_name_sanitizer 10 ['a', 'b'] ['c', '_', 'd', '-', 'e'] ∧
    (managed_db_name_sanitizer 10 ['a', 'b'] ['c', '_', 'd', '-', 'e']).length
      ≤ 10 - (['a', 'b'] : List Char).length := by
  have h := managed_db_name_sanitizer_spec 10 ['a', 'b'] ['c', '_', 'd', '-', 'e']
    (by decide)
  exact ⟨by decide, h.1, h.2.2⟩

/-! ## VersionsNumber (utilities.rs lines 225-313)

`errors.rs` is not part of the excerpt; from its uses, `CommandError::new` takes a
full diagnostic message and an optional safe message, and
`CommandError::new_from_safe_message(m)` builds an error whose safe message is `m`;
exact messages are paraphrased where the original text contains characters we do
not reproduce. -/

/-- Structured error with a raw diagnostic part and an optional safe user-facing
part (crate::errors::CommandError, modelled from its constructor calls). -/
structure CommandError where
  full_details : String
  message_safe : Option String
  deriving Repr, DecidableEq

/-- `CommandError::new_from_safe_message`: safe message doubling as the details. -/
def CommandError.newFromSafeMessage (m : String) : CommandError :=
  { full_details := m, message_safe := some m }

/-- Embedding of `str::trim` on character lists (whitespace stripped from both
ends). -/
def trimChars (s : List Char) : List Char :=
  ((s.dropWhile Char.isWhitespace).reverse.dropWhile Char.isWhitespace).reverse

/-- Split off everything before the first dot; `none` when the list has no dot. -/
def splitFirstDot : List Char → Option (List Char × List Char)
  | [] => none
  | c :: cs =>
    if c = '.' then some ([], cs)
    else
      match splitFirstDot cs with
      | none => none
      | some (a, b) => some (c :: a, b)

/-- Embedding of `str::splitn(n, '.')`: at most `n` pieces, the last piece keeps
any remaining dots.  For `n ≥ 1` the result is never empty. -/
def splitnDot : Nat → List Char → List (List Char)
  | 0, _ => []
  | 1, s => [s]
  | n + 2, s =>
    match splitFirstDot s with
    | none => [s]
    | some (a, b) => a :: splitnDot (n + 1) b

/-- The version structure of utilities.rs (fields as character lists). -/
structure VersionsNumber where
  major : List Char
  minor : Option (List Char)
  patch : Option (List Char)
  suffix : Option (List Char)
  deriving Repr, DecidableEq

/-- Embedding of `VersionsNumber::from_str` (utilities.rs lines 274-313): an error
when the trimmed input is empty, otherwise `splitn(4, '.')` with each piece
trimmed; `replace("v", "")` on the major piece and `replace("+", "")` on the minor
piece remove every occurrence of the character and are embedded as filters. -/
def versionsNumberFromStr (version : List Char) : Except CommandError VersionsNumber :=
  if trimChars version = [] then
    Except.error (CommandError.newFromSafeMessage "version cannot be empty")
  else
    match (splitnDot 4 version).map trimChars with
    | [] =>
      Except.error (CommandError.newFromSafeMessage
        "please check the version you have sent, it cannot be checked")
    | major :: rest =>
      Except.ok
        { major := major.filter (fun c => c ≠ 'v')
          minor := (rest.get? 0).map (fun m => m.filter (fun c => c ≠ '+'))
          patch := rest.get? 1
          suffix := rest.get? 2 }

/-- `splitn` with a positive piece count never returns an empty list, so the
unreachable error branch of `from_str` is indeed dead code. -/
theorem splitnDot_ne_nil (n : Nat) (s : List Char) : splitnDot (n + 1) s ≠ [] := by
  match n with
  | 0 => simp [splitnDot]
  | m + 1 =>
    show splitnDot (m + 2) s ≠ []
    cases h : splitFirstDot s <;> simp [splitnDot, h]

/-- A character never survives the filter that removes it. -/
theorem not_mem_filter_ne (c : Char) (l : List Char) :
    c ∉ l.filter (fun x => x ≠ c) := by
  intro h
  have := List.mem_filter.mp h
  simp at this

/-! ## Claim C10 -/

/-- Spec-side transformation for the C10 wording: remove the leading run of `v`
characters (and nothing else) from a component. -/
def stripLeadingV (s : List Char) : List Char := s.dropWhile (fun c => c = 'v')

/-- C10, counterexample: on input `1v`, `from_str` returns major `1` — the
`replace("v", "")` call removes every `v`, not only a leading one, so the claimed
leading-only removal (which would keep `1v` unchanged) does not describe the
code. -/
theorem versions_number_from_str_cex :
    versionsNumberFromStr ['1', 'v'] =
      Except.ok { major := ['1'], minor := none, patch := none, suffix := none } ∧
    stripLeadingV ['1', 'v'] = ['1', 'v'] ∧
    (['1'] : List Char) ≠ ['1', 'v'] := by
  refine ⟨rfl, by decide, by decide⟩

/-- C10 (amended): `from_str` returns an error if and only if the input is empty
after trimming whitespace; for every other input it returns `Ok`, with every `v`
character removed from the major component and every `+` character removed from
the minor component. -/
theorem versions_number_from_str_spec (s : List Char) :
    (trimChars s = [] → versionsNumberFromStr s =
      Except.error (CommandError.newFromSafeMessage "version cannot be empty")) ∧
    (trimChars s ≠ [] → ∃ vn, versionsNumberFromStr s = Except.ok vn ∧
      'v' ∉ vn.major ∧ ∀ m, vn.minor = some m → '+' ∉ m) := by
  constructor
  · intro h
    simp [versionsNumberFromStr, h]
  · intro h
    have hne : (splitnDot 4 s).map trimChars ≠ [] := by
      intro hq
      exact splitnDot_ne_nil 3 s (by simpa using hq)
    obtain ⟨major, rest, hp⟩ := List.exists_cons_of_ne_nil hne
    refine ⟨{ major := major.filter (fun c => c ≠ 'v')
              minor := (rest.get? 0).map (fun m => m.filter (fun c => c ≠ '+'))
              patch := rest.get? 1
              suffix := rest.get? 2 }, ?_, ?_, ?_⟩
    · unfold versionsNumberFromStr
      rw [if_neg h, hp]
    · exact not_mem_filter_ne 'v' major
    · intro m hm
      obtain ⟨m0, _, rfl⟩ := Option.map_eq_some'.mp hm
      exact not_mem_filter_ne '+' m0

/-- C10 (amended), witness: a whitespace-only input errors; the input `v1.2+`
parses with major `1` and minor `2`. -/
theorem versions_number_from_str_spec_witness :
    (versionsNumberFromStr [' '] =
      Except.error (CommandError.newFromSafeMessage "version cannot be empty")) ∧
    (∃ vn, versionsNumberFromStr ['v', '1', '.', '2', '+'] = Except.ok vn ∧
      'v' ∉ vn.major ∧ ∀ m, vn.minor = some m → '+' ∉ m) := by
  exact ⟨(versions_number_from_str_spec [' ']).1 (by decide),
    (versions_number_from_str_spec ['v', '1', '.', '2', '+']).2 (by decide)⟩

/-! ## Leveled chart scheduler (digitalocean/kubernetes/helm_charts.rs)

`do_helm_charts` is embedded at the granularity the claims need: each installable
unit is represented by its (unique) chart name, a level by the list of names it
contains, in the order the source pushes the boxes.  The values payloads, paths
and namespaces of the charts do not influence membership or levels and are not
modelled.  The fallible external steps are oracle parameters:
  * `fileOpen` — outcome of `File::open(qovery_terraform_config_file)`;
  * `parsed` — outcome of `serde_json::from_reader` on that file;
  * `shell_agent` — outcome of `get_chart_for_shell_agent` (helm.rs, outside the
    excerpt), giving the shell-agent chart name on success;
  * `agent_version`, `engine_version` — outcomes of the two
    `get_qovery_app_version` calls.
The error messages built by the source contain an apostrophe and are paraphrased
(`Cannot deploy` for the original contraction). -/

/-- The parsed prerequisite terraform config (loki storage settings); its fields
are only forwarded into chart values, which are not modelled. -/
structure DigitalOceanQoveryTerraformConfig where
  loki_storage_config_do_space_access_id : String
  loki_storage_config_do_space_secret_key : String
  loki_storage_config_do_space_region : String
  loki_storage_config_do_space_host : String
  loki_storage_config_do_space_bucket_name : String
  deriving Repr, DecidableEq, Inhabited

/-- The feature flags of `ChartsConfigPrerequisites` that decide chart membership
(the remaining fields only feed chart values). -/
structure ChartsConfigPrerequisites where
  ff_log_history_enabled : Bool
  ff_metrics_history_enabled : Bool
  disable_pleco : Bool
  deriving Repr, DecidableEq

/-- Embedding of `do_helm_charts` (helm_charts.rs lines 115-1069), producing the
list of levels of chart names in source push order. -/
def do_helm_charts (fileOpen : Except String Unit)
    (parsed : Except String DigitalOceanQoveryTerraformConfig)
    (cfg : ChartsConfigPrerequisites)
    (shell_agent : Except CommandError String)
    (agent_version : Except CommandError String)
    (engine_version : Except CommandError String) :
    Except CommandError (List (List String)) := do
  match fileOpen with
  | Except.error e =>
    let message_safe := "Cannot deploy helm chart as Qovery terraform config file has not been rendered by Terraform. Are you running it in dry run mode?"
    throw { full_details := message_safe ++ ", error: " ++ e
            message_safe := some message_safe }
  | Except.ok () => pure ()
  let _qovery_terraform_config ← match parsed with
    | Except.error e =>
      let message_safe := "Error while parsing terraform config file"
      throw ({ full_details := message_safe ++ ", error: " ++ e
               message_safe := some message_safe } : CommandError)
    | Except.ok config => pure config
  let shell_agent_name ← shell_agent
  let _qovery_agent_version ← agent_version
  let _qovery_engine_version ← engine_version
  let level_1 : List String := ["q-storageclass", "coredns"]
  let level_2 : List String := ["container-registry-secret", "cert-manager"]
  let level_3 : List String := []
  let level_4 : List String := ["metrics-server", "externaldns"]
  let level_5 : List String := ["nginx-ingress"]
  let level_6 : List String :=
    ["cert-manager-configs", "qovery-agent", shell_agent_name, "qovery-engine",
      "digital-mobius", "k8s-token-rotate"]
  -- observability
  let level_2 := if cfg.ff_metrics_history_enabled
    then level_2 ++ ["kube-prometheus-stack"] else level_2
  let level_4 := if cfg.ff_metrics_history_enabled
    then level_4 ++ ["prometheus-adapter", "kube-state-metrics"] else level_4
  let level_3 := if cfg.ff_log_history_enabled then level_3 ++ ["promtail"] else level_3
  let level_4 := if cfg.ff_log_history_enabled then level_4 ++ ["loki"] else level_4
  let level_6 := if cfg.ff_metrics_history_enabled || cfg.ff_log_history_enabled
    then level_6 ++ ["grafana"] else level_6
  -- pleco
  let level_5 := if ! cfg.disable_pleco then level_5 ++ ["pleco"] else level_5
  pure [level_1, level_2, level_3, level_4, level_5, level_6]

/-! ## Claim C3 -/

/-- C3, counterexample: starting from all feature flags false, enabling
`metrics_history_enabled` also adds `grafana` to level 6 (grafana is gated on
metrics OR logs), so the toggle adds 4 units, not exactly the 3 named ones. -/
theorem do_helm_charts_metrics_toggle_cex :
    "grafana" ∈ ((do_helm_charts (Except.ok ()) (Except.ok default)
        { ff_log_history_enabled := false, ff_metrics_history_enabled := true,
          disable_pleco := false }
        (Except.ok "shell-agent") (Except.ok "v1") (Except.ok "v1")).toOption.getD
          []).getD 5 [] ∧
    "grafana" ∉ ((do_helm_charts (Except.ok ()) (Except.ok default)
        { ff_log_history_enabled := false, ff_metrics_history_enabled := false,
          disable_pleco := false }
        (Except.ok "shell-agent") (Except.ok "v1") (Except.ok "v1")).toOption.getD
          []).getD 5 [] ∧
    "grafana" ∉ ["kube-prometheus-stack", "prometheus-adapter", "kube-state-metrics"] := by
  refine ⟨by decide, by decide, by decide⟩

/-- C3 (amended): starting from a configuration with all feature flags false,
setting `metrics_history_enabled` to true adds exactly 4 named units — the
kube-prometheus-stack to level 2, the prometheus-adapter and kube-state-metrics
to level 4, and grafana to level 6 — each appended at the end of its level, and
removes none; setting it back to false removes exactly those 4 units and nothing
else. -/
theorem do_helm_charts_metrics_toggle (parsedCfg : DigitalOceanQoveryTerraformConfig)
    (shellAgentName agentVer engineVer : String) :
    do_helm_charts (Except.ok ()) (Except.ok parsedCfg)
        { ff_log_history_enabled := false, ff_metrics_history_enabled := false,
          disable_pleco := false }
        (Except.ok shellAgentName) (Except.ok agentVer) (Except.ok engineVer) =
      Except.ok
        [["q-storageclass", "coredns"],
         ["container-registry-secret", "cert-manager"],
         [],
         ["metrics-server", "externaldns"],
         ["nginx-ingress", "pleco"],
         ["cert-manager-configs", "qovery-agent", shellAgentName, "qovery-engine",
           "digital-mobius", "k8s-token-rotate"]] ∧
    do_helm_charts (Except.ok ()) (Except.ok parsedCfg)
        { ff_log_history_enabled := false, ff_metrics_history_enabled := true,
          disable_pleco := false }
        (Except.ok shellAgentName) (Except.ok agentVer) (Except.ok engineVer) =
      Except.ok
        [["q-storageclass", "coredns"],
         ["container-registry-secret", "cert-manager"] ++ ["kube-prometheus-stack"],
         [],
         ["metrics-server", "externaldns"] ++ ["prometheus-adapter", "kube-state-metrics"],
         ["nginx-ingress", "pleco"],
         ["cert-manager-configs", "qovery-agent", shellAgentName, "qovery-engine",
           "digital-mobius", "k8s-token-rotate"] ++ ["grafana"]] := by
  exact ⟨rfl, rfl⟩

/-- C3 (amended), witness: the toggle at a concrete configuration. -/
theorem do_helm_charts_metrics_toggle_witness :
    do_helm_charts (Except.ok ()) (Except.ok default)
        { ff_log_history_enabled := false, ff_metrics_history_enabled := true,
          disable_pleco := false }
        (Except.ok "shell-agent") (Except.ok "v1") (Except.ok "v1") =
      Except.ok
        [["q-storageclass", "coredns"],
         ["container-registry-secret", "cert-manager"] ++ ["kube-prometheus-stack"],
         [],
         ["metrics-server", "externaldns"] ++ ["prometheus-adapter", "kube-state-metrics"],
         ["nginx-ingress", "pleco"],
         ["cert-manager-configs", "qovery-agent", "shell-agent", "qovery-engine",
           "digital-mobius", "k8s-token-rotate"] ++ ["grafana"]] :=
  (do_helm_charts_metrics_toggle default "shell-agent" "v1" "v1").2

/-! ## Claim C4 -/

/-- C4: if the prerequisite terraform config file cannot be opened, or cannot be
parsed as the expected structure, `do_helm_charts` returns a structured error
carrying both a safe user-facing message and a raw diagnostic message, and no
(partial) list of levels is ever returned in either case. -/
theorem do_helm_charts_fail_fast (eOpen eParse : String)
    (parsed : Except String DigitalOceanQoveryTerraformConfig)
    (cfg : ChartsConfigPrerequisites)
    (shell_agent agent_version engine_version : Except CommandError String) :
    (∃ ce : CommandError,
      do_helm_charts (Except.error eOpen) parsed cfg
          shell_agent agent_version engine_version = Except.error ce ∧
      ce.message_safe = some "Cannot deploy helm chart as Qovery terraform config file has not been rendered by Terraform. Are you running it in dry run mode?" ∧
      ce.full_details = "Cannot deploy helm chart as Qovery terraform config file has not been rendered by Terraform. Are you running it in dry run mode?" ++ ", error: " ++ eOpen) ∧
    (∀ levels, do_helm_charts (Except.error eOpen) parsed cfg
        shell_agent agent_version engine_version ≠ Except.ok levels) ∧
    (∃ ce : CommandError,
      do_helm_charts (Except.ok ()) (Except.error eParse) cfg
          shell_agent agent_version engine_version = Except.error ce ∧
      ce.message_safe = some "Error while parsing terraform config file" ∧
      ce.full_details = "Error while parsing terraform config file" ++ ", error: " ++ eParse) ∧
    (∀ levels, do_helm_charts (Except.ok ()) (Except.error eParse) cfg
        shell_agent agent_version engine_version ≠ Except.ok levels) := by
  refine ⟨⟨_, rfl, rfl, ?_⟩, ?_, ⟨_, rfl, rfl, ?_⟩, ?_⟩
  · simp [String.append_assoc]
  · intro levels hlv
    rw [show do_helm_charts (Except.error eOpen) parsed cfg shell_agent agent_version
        engine_version = Except.error _ from rfl] at hlv
    exact Except.noConfusion hlv
  · simp [String.append_assoc]
  · intro levels hlv
    rw [show do_helm_charts (Except.ok ()) (Except.error eParse) cfg shell_agent
        agent_version engine_version = Except.error _ from rfl] at hlv
    exact Except.noConfusion hlv

/-- C4, witness: concrete open and parse failures yield the structured errors and
no level list. -/
theorem do_helm_charts_fail_fast_witness :
    (∃ ce : CommandError,
      do_helm_charts (Except.error "io error") (Except.ok default)
          { ff_log_history_enabled := false, ff_metrics_history_enabled := false,
            disable_pleco := false }
          (Except.ok "shell-agent") (Except.ok "v1") (Except.ok "v1") =
        Except.error ce ∧
      ce.message_safe = some "Cannot deploy helm chart as Qovery terraform config file has not been rendered by Terraform. Are you running it in dry run mode?" ∧
      ce.full_details = "Cannot deploy helm chart as Qovery terraform config file has not been rendered by Terraform. Are you running it in dry run mode?" ++ ", error: " ++ "io error") ∧
    (∀ levels, do_helm_charts (Except.ok ()) (Except.error "bad json")
        { ff_log_history_enabled := false, ff_metrics_history_enabled := false,
          disable_pleco := false }
        (Except.ok "shell-agent") (Except.ok "v1") (Except.ok "v1") ≠
      Except.ok levels) := by
  have h := do_helm_charts_fail_fast "io error" "bad json" (Except.ok default)
    { ff_log_history_enabled := false, ff_metrics_history_enabled := false,
      disable_pleco := false }
    (Except.ok "shell-agent") (Except.ok "v1") (Except.ok "v1")
  exact ⟨h.1, h.2.2.2⟩

/-! ## Capability-gated hooks of the Scaleway PostgreSQL service
(scaleway/databases/postgresql.rs lines 333-399)

Every Upgrade/Downgrade/Backup/Restore/Clone hook body is `unimplemented!()`:
the Rust macro that panics with the message `not implemented`.  A hook outcome is
therefore one of: a normal `Ok`, a normal `Err` carried in the returned `Result`,
or a panic, which unwinds and never produces a `Result` at all. -/

/-- Possible terminations of a lifecycle hook. -/
inductive HookOutcome where
  | ok
  | err (message : String)
  | panic (message : String)
  deriving Repr, DecidableEq

/-- A hook outcome is a returned error `Result` (not a panic, not a success). -/
def HookOutcome.isErr : HookOutcome → Bool
  | HookOutcome.err _ => true
  | _ => false

/-- `impl Upgrade for PostgreSQL`: `on_upgrade` is `unimplemented!()`. -/
def scwPostgresOnUpgrade : HookOutcome := HookOutcome.panic "not implemented"

/-- `on_upgrade_check` is `unimplemented!()`. -/
def scwPostgresOnUpgradeCheck : HookOutcome := HookOutcome.panic "not implemented"

/-- `on_upgrade_error` is `unimplemented!()`. -/
def scwPostgresOnUpgradeError : HookOutcome := HookOutcome.panic "not implemented"

/-- `impl Downgrade for PostgreSQL`: `on_downgrade` is `unimplemented!()`. -/
def scwPostgresOnDowngrade : HookOutcome := HookOutcome.panic "not implemented"

/-- `on_downgrade_check` is `unimplemented!()`. -/
def scwPostgresOnDowngradeCheck : HookOutcome := HookOutcome.panic "not implemented"

/-- `on_downgrade_error` is `unimplemented!()`. -/
def scwPostgresOnDowngradeError : HookOutcome := HookOutcome.panic "not implemented"

/-- `impl Backup for PostgreSQL`: `on_backup` is `unimplemented!()`. -/
def scwPostgresOnBackup : HookOutcome := HookOutcome.panic "not implemented"

/-- `on_backup_check` is `unimplemented!()`. -/
def scwPostgresOnBackupCheck : HookOutcome := HookOutcome.panic "not implemented"

/-- `on_backup_error` is `unimplemented!()`. -/
def scwPostgresOnBackupError : HookOutcome := HookOutcome.panic "not implemented"

/-- `on_restore` is `unimplemented!()`. -/
def scwPostgresOnRestore : HookOutcome := HookOutcome.panic "not implemented"

/-- `on_restore_check` is `unimplemented!()`. -/
def scwPostgresOnRestoreCheck : HookOutcome := HookOutcome.panic "not implemented"

/-- `on_restore_error` is `unimplemented!()`. -/
def scwPostgresOnRestoreError : HookOutcome := HookOutcome.panic "not implemented"

/-- `impl Clone for PostgreSQL`: `on_clone` is `unimplemented!()`. -/
def scwPostgresOnClone : HookOutcome := HookOutcome.panic "not implemented"

/-- `on_clone_check` is `unimplemented!()`. -/
def scwPostgresOnCloneCheck : HookOutcome := HookOutcome.panic "not implemented"

/-- `on_clone_error` is `unimplemented!()`. -/
def scwPostgresOnCloneError : HookOutcome := HookOutcome.panic "not implemented"

/-! ## Claim C5 -/

/-- C5, counterexample: the Scaleway PostgreSQL `on_upgrade` hook does not
return a "not implemented" failure as an error `Result` — it terminates by
panicking (`unimplemented!()`), so no error `Result` is ever produced. -/
theorem scw_postgres_gated_hooks_cex :
    scwPostgresOnUpgrade.isErr = false ∧
    scwPostgresOnUpgrade = HookOutcome.panic "not implemented" := by
  refine ⟨rfl, rfl⟩

/-- C5 (amended): every capability-gated hook of the Scaleway PostgreSQL service
(Upgrade, Downgrade, Backup, Restore, Clone, with their `_check` and `_error`
variants) terminates by panicking with the message `not implemented`; none of
them returns a success and none of them returns an error `Result`. -/
theorem scw_postgres_gated_hooks :
    scwPostgresOnUpgrade = HookOutcome.panic "not implemented" ∧
    scwPostgresOnUpgradeCheck = HookOutcome.panic "not implemented" ∧
    scwPostgresOnUpgradeError = HookOutcome.panic "not implemented" ∧
    scwPostgresOnDowngrade = HookOutcome.panic "not implemented" ∧
    scwPostgresOnDowngradeCheck = HookOutcome.panic "not implemented" ∧
    scwPostgresOnDowngradeError = HookOutcome.panic "not implemented" ∧
    scwPostgresOnBackup = HookOutcome.panic "not implemented" ∧
    scwPostgresOnBackupCheck = HookOutcome.panic "not implemented" ∧
    scwPostgresOnBackupError = HookOutcome.panic "not implemented" ∧
    scwPostgresOnRestore = HookOutcome.panic "not implemented" ∧
    scwPostgresOnRestoreCheck = HookOutcome.panic "not implemented" ∧
    scwPostgresOnRestoreError = HookOutcome.panic "not implemented" ∧
    scwPostgresOnClone = HookOutcome.panic "not implemented" ∧
    scwPostgresOnCloneCheck = HookOutcome.panic "not implemented" ∧
    scwPostgresOnCloneError = HookOutcome.panic "not implemented" := by
  exact ⟨rfl, rfl, rfl, rfl, rfl, rfl, rfl, rfl, rfl, rfl, rfl, rfl, rfl, rfl, rfl⟩

/-! ## Router custom-domain check (models/router.rs lines 377-420)

`on_create_check` first runs `self.check_domains(...)?` (a trait method outside
the excerpt, whose outcome is passed in as the oracle `checkDomainsResult`), then
loops over the custom domains: it calls `check_cname_for` and compares the value
returned (dot-trimmed) against the custom domain target (dot-trimmed); on a match
it continues silently, otherwise — covering both a resolver `Err` and a
non-matching `Ok` with one arm — it logs one warning and continues.  The logger
warning and the listener progress events are merged into one event trace. -/

/-- A custom domain of a router: the user domain and the CNAME target it is
expected to point to. -/
structure CustomDomain where
  domain : String
  target_domain : String
  deriving Repr, DecidableEq

/-- Embedding of `str::trim_end_matches('.')`: drop every trailing dot. -/
def trimEndDots (s : String) : String :=
  String.mk (s.toList.reverse.dropWhile (fun c => c = '.')).reverse

/-- The per-custom-domain body of the loop in `on_create_check`: the events of
the `check_cname_for` call, followed — unless the returned value (dot-trimmed)
equals the declared target (dot-trimmed) — by one invalid-CNAME warning; both
the `Ok(err)` and `Err(err)` arms of the source emit the same warning. -/
def routerDomainEvents (env : String → Nat → Option String) (cd : CustomDomain) :
    List Event :=
  let res := check_cname_for (env cd.domain) cd.domain
  match res.2.2 with
  | Except.ok cname =>
    if trimEndDots cname = trimEndDots cd.target_domain then res.2.1
    else res.2.1 ++
      [{ level := PLevel.Warn, tag := EventTag.invalidCname, subject := cd.domain }]
  | Except.error _ =>
    res.2.1 ++
      [{ level := PLevel.Warn, tag := EventTag.invalidCname, subject := cd.domain }]

/-- Embedding of `Router::on_create_check`.  `env d i` is the CNAME lookup
outcome of attempt `i` for custom domain `d`. -/
def on_create_check (checkDomainsResult : Except String Unit)
    (env : String → Nat → Option String)
    (custom_domains : List CustomDomain) : List Event × Except String Unit :=
  match checkDomainsResult with
  | Except.error e => ([], Except.error e)
  | Except.ok () =>
    (custom_domains.flatMap (routerDomainEvents env), Except.ok ())

/-- Since `check_cname_for` always returns `Ok` of its input, the loop body
reduces to comparing the custom domain itself against its declared target. -/
theorem routerDomainEvents_eq (env : String → Nat → Option String) (cd : CustomDomain) :
    routerDomainEvents env cd =
      if trimEndDots cd.domain = trimEndDots cd.target_domain
        then (check_cname_for (env cd.domain) cd.domain).2.1
        else (check_cname_for (env cd.domain) cd.domain).2.1 ++
          [{ level := PLevel.Warn, tag := EventTag.invalidCname, subject := cd.domain }] :=
  rfl

/-- The events emitted by `check_cname_for` are only the four prober events; in
particular the router-level invalid-CNAME warning never comes from the prober. -/
theorem check_cname_for_event_tags (env : Nat → Option String) (c : String) :
    ∀ ev ∈ (check_cname_for env c).2.1, ev.tag ≠ EventTag.invalidCname := by
  intro ev hev
  have hx : (check_cname_for env c).2.1 =
      { level := PLevel.Info, tag := EventTag.checkingCname, subject := c } ::
        (List.replicate (retryLoop env 4 5000 30 0).failures
          { level := PLevel.Info, tag := EventTag.cnameRetry, subject := c } ++
        [match (retryLoop env 4 5000 30 0).value with
          | some _ => { level := PLevel.Info, tag := EventTag.cnameResolved, subject := c }
          | none => { level := PLevel.Warn, tag := EventTag.cnameFailed, subject := c }]) :=
    rfl
  rw [hx] at hev
  rcases List.mem_cons.mp hev with h | h
  · subst h
    intro hq
    exact EventTag.noConfusion hq
  · rcases List.mem_append.mp h with h2 | h2
    · have h3 := List.eq_of_mem_replicate h2
      subst h3
      intro hq
      exact EventTag.noConfusion hq
    · have h3 := List.mem_singleton.mp h2
      cases hval : (retryLoop env 4 5000 30 0).value with
      | some r =>
        rw [hval] at h3
        subst h3
        intro hq
        exact EventTag.noConfusion hq
      | none =>
        rw [hval] at h3
        subst h3
        intro hq
        exact EventTag.noConfusion hq

/-! ## Claim C7 -/

/-- C7, counterexample: a router with the single custom domain `a.example.com`
whose declared target is `a.example.com` itself, and a resolver that resolves the
CNAME to the mismatched target `wrong.example.com`: the check succeeds and no
warning-level event is emitted at all, because the guard compares the string
`check_cname_for` returns — the input domain, not the resolved target — with the
declared target.  So a resolved-but-mismatched CNAME target does not always log a
warning. -/
theorem on_create_check_cex :
    on_create_check (Except.ok ()) (fun _ _ => some "wrong.example.com")
        [{ domain := "a.example.com", target_domain := "a.example.com" }] =
      ([{ level := PLevel.Info, tag := EventTag.checkingCname, subject := "a.example.com" },
        { level := PLevel.Info, tag := EventTag.cnameResolved, subject := "a.example.com" }],
       Except.ok ()) ∧
    trimEndDots "wrong.example.com" ≠ trimEndDots "a.example.com" := by
  exact ⟨rfl, by decide⟩

/-- C7 (amended): provided the plain-domain pre-check succeeded, `on_create_check`
returns `Ok` for the batch whatever the resolver outcomes are, and — because
`check_cname_for` returns its input domain — a CNAME resolution failure and a
resolved-but-mismatched CNAME target are treated identically: for each custom
domain, exactly one invalid-CNAME warning is logged if and only if the domain
itself differs from its declared target after trimming trailing dots, and the
loop continues with the next domain in every case. -/
theorem on_create_check_lenient (checkDomainsResult : Except String Unit)
    (env : String → Nat → Option String) (custom_domains : List CustomDomain)
    (h : checkDomainsResult = Except.ok ()) :
    (on_create_check checkDomainsResult env custom_domains).2 = Except.ok () ∧
    (∀ cd ∈ custom_domains, trimEndDots cd.domain ≠ trimEndDots cd.target_domain →
      ({ level := PLevel.Warn, tag := EventTag.invalidCname, subject := cd.domain } : Event)
        ∈ (on_create_check checkDomainsResult env custom_domains).1) ∧
    (∀ d, ({ level := PLevel.Warn, tag := EventTag.invalidCname, subject := d } : Event)
        ∈ (on_create_check checkDomainsResult env custom_domains).1 →
      ∃ cd ∈ custom_domains, cd.domain = d ∧
        trimEndDots cd.domain ≠ trimEndDots cd.target_domain) := by
  subst h
  refine ⟨rfl, ?_, ?_⟩
  · intro cd hcd hne
    show _ ∈ custom_domains.flatMap (routerDomainEvents env)
    rw [List.mem_flatMap]
    refine ⟨cd, hcd, ?_⟩
    rw [routerDomainEvents_eq, if_neg hne]
    exact List.mem_append_right _ (List.mem_singleton.mpr rfl)
  · intro d hd
    have hd2 : _ ∈ custom_domains.flatMap (routerDomainEvents env) := hd
    rw [List.mem_flatMap] at hd2
    obtain ⟨cd, hcd, hev⟩ := hd2
    rw [routerDomainEvents_eq] at hev
    by_cases hmm : trimEndDots cd.domain = trimEndDots cd.target_domain
    · rw [if_pos hmm] at hev
      exact absurd rfl (check_cname_for_event_tags (env cd.domain) cd.domain _ hev)
    · rw [if_neg hmm] at hev
      rcases List.mem_append.mp hev with hin | hin
      · exact absurd rfl (check_cname_for_event_tags (env cd.domain) cd.domain _ hin)
      · have hsub := congrArg Event.subject (List.mem_singleton.mp hin)
        exact ⟨cd, hcd, hsub.symm, hmm⟩

/-- C7 (amended), witness: one matching and one mismatched custom domain under a
permanently failing resolver. -/
theorem on_create_check_lenient_witness :
    (on_create_check (Except.ok ()) (fun _ _ => none)
        [{ domain := "a.example.com", target_domain := "b.example.com" }]).2 =
      Except.ok () ∧
    ({ level := PLevel.Warn, tag := EventTag.invalidCname, subject := "a.example.com" }
        : Event) ∈
      (on_create_check (Except.ok ()) (fun _ _ => none)
        [{ domain := "a.example.com", target_domain := "b.example.com" }]).1 := by
  have h := on_create_check_lenient (Except.ok ()) (fun _ _ => none)
    [{ domain := "a.example.com", target_domain := "b.example.com" }] rfl
  refine ⟨h.1, ?_⟩
  refine h.2.1 { domain := "a.example.com", target_domain := "b.example.com" } ?_ ?_
  · exact List.mem_singleton.mpr rfl
  · decide

/-! ## Chart backup secrets (cmd/helm_utils.rs)

The kubectl/filesystem collaborators are oracle parameters; the secrets the code
creates, applies and deletes are returned as a `KubeAction` trace in call order.
`HelmError::CmdError(chart, HelmCommand::UPGRADE, cause)` is modelled with the
command as a string. -/

/-- A cluster-state action issued through kubectl. -/
inductive KubeAction where
  | createSecret (name : String) (key : String)
  | applyPath (path : String)
  | deleteSecret (name : String)
  deriving Repr, DecidableEq

/-- `HelmError::CmdError` with its chart name, helm command and structured
cause. -/
structure HelmError where
  chart : String
  command : String
  cause : CommandError
  deriving Repr, DecidableEq

/-- Does `pat` occur at the head of `cs`? -/
def startsWithChars : List Char → List Char → Bool
  | [], _ => true
  | _ :: _, [] => false
  | p :: ps, c :: cs => p = c && startsWithChars ps cs

/-- Does `pat` occur anywhere in `hay`? -/
def containsChars (hay pat : List Char) : Bool :=
  match hay with
  | [] => startsWithChars pat []
  | _ :: rest => startsWithChars pat hay || containsChars rest pat

/-- Substring test (`str::contains`) on the underlying character lists. -/
def containsSub (s pat : String) : Bool := containsChars s.toList pat.toList

/-- An in-memory backup candidate (`helm_utils::Backup`). -/
structure Backup where
  name : String
  content : String
  deriving Repr, DecidableEq

/-- A written backup file (`helm_utils::BackupInfos`). -/
structure BackupInfos where
  name : String
  path : String
  deriving Repr, DecidableEq

/-- First loop of `prepare_chart_backup` (lines 38-58): fetch each resource's
YAML; kubectl errors are only logged, and contents reading `no resources found`
(case-insensitively) are skipped. -/
def collectBackups (getResourceYaml : String → Except CommandError String)
    (backup_resources : List String) : List Backup :=
  backup_resources.filterMap (fun r =>
    match getResourceYaml r with
    | Except.ok content =>
      if containsSub content.toLower "no resources found" then none
      else some { name := r, content := content }
    | Except.error _ => none)

/-- Second loop of `prepare_chart_backup` (lines 66-93): write one YAML backup
file per non-empty backup whose content is not an empty item list; a filesystem
error aborts with a `CmdError`. -/
def mkBackupInfos (chartName : String)
    (createYamlBackupFile : String → String → Except String String) :
    List Backup → Except HelmError (List BackupInfos)
  | [] => Except.ok []
  | b :: rest =>
    if b.content ≠ "" ∧ ¬ containsSub b.content "items: []" then
      match createYamlBackupFile b.name b.content with
      | Except.ok path =>
        (mkBackupInfos chartName createYamlBackupFile rest).map
          (fun infos => { name := b.name, path := path } :: infos)
      | Except.error e =>
        Except.error
          { chart := chartName, command := "UPGRADE"
            cause := { full_details := "Error while creating YAML backup file for " ++ b.name ++ "."
                       message_safe := some e } }
    else mkBackupInfos chartName createYamlBackupFile rest

/-- Third loop of `prepare_chart_backup` (lines 95-150): edit each backup file
(strip metadata lines, truncate, indent), then create the cluster secret named
`<chart-name>-<resource-name>-q-backup` from it; any failure aborts with a
`CmdError`. -/
def storeBackupInfos (chartName : String)
    (removeLines truncateFile indentFile : String → Except String Unit)
    (createSecretRes : String → Except CommandError Unit) :
    List BackupInfos → Except HelmError Unit × List KubeAction
  | [] => (Except.ok (), [])
  | info :: rest =>
    match removeLines info.path with
    | Except.error _ =>
      (Except.error
        { chart := chartName, command := "UPGRADE"
          cause := { full_details := "Error while editing YAML backup file " ++ info.name ++ "."
                     message_safe := none } }, [])
    | Except.ok () =>
      match truncateFile info.path with
      | Except.error _ =>
        (Except.error
          { chart := chartName, command := "UPGRADE"
            cause := { full_details := "Error while editing YAML backup file " ++ info.name ++ "."
                       message_safe := none } }, [])
      | Except.ok () =>
        match indentFile info.path with
        | Except.error _ =>
          (Except.error
            { chart := chartName, command := "UPGRADE"
              cause := { full_details := "Error while editing YAML backup file " ++ info.name ++ "."
                         message_safe := none } }, [])
        | Except.ok () =>
          match createSecretRes (chartName ++ "-" ++ info.name ++ "-q-backup") with
          | Except.error e =>
            (Except.error { chart := chartName, command := "UPGRADE", cause := e },
              [KubeAction.createSecret (chartName ++ "-" ++ info.name ++ "-q-backup")
                info.name])
          | Except.ok () =>
            ((storeBackupInfos chartName removeLines truncateFile indentFile
                createSecretRes rest).1,
              KubeAction.createSecret (chartName ++ "-" ++ info.name ++ "-q-backup")
                  info.name ::
                (storeBackupInfos chartName removeLines truncateFile indentFile
                  createSecretRes rest).2)

/-- Embedding of `prepare_chart_backup` (helm_utils.rs lines 28-153). -/
def prepare_chart_backup (chartName : String)
    (getResourceYaml : String → Except CommandError String)
    (createYamlBackupFile : String → String → Except String String)
    (removeLines truncateFile indentFile : String → Except String Unit)
    (createSecretRes : String → Except CommandError Unit)
    (backup_resources : List String) :
    Except HelmError (List BackupInfos) × List KubeAction :=
  let backups := collectBackups getResourceYaml backup_resources
  if backups.isEmpty then (Except.ok [], [])
  else
    match mkBackupInfos chartName createYamlBackupFile backups with
    | Except.error e => (Except.error e, [])
    | Except.ok backup_infos =>
      match storeBackupInfos chartName removeLines truncateFile indentFile
          createSecretRes backup_infos with
      | (Except.ok (), acts) => (Except.ok backup_infos, acts)
      | (Except.error e, acts) => (Except.error e, acts)

/-- Body of the per-secret loop of `apply_chart_backup` (lines 179-230): only
secrets whose name contains `-q-backup` are touched; a restorable secret is
written to a file, applied, then deleted; a secret whose content cannot be read
as a file because it has no content is deleted without applying; other errors
abort. -/
def processBackupSecret (chartName : String)
    (createYamlFromSecret : String → Except String String)
    (applyRes : String → Except CommandError Unit)
    (deleteRes : String → Except CommandError Unit)
    (secretName : String) : Except HelmError Unit × List KubeAction :=
  if containsSub secretName "-q-backup" then
    match createYamlFromSecret secretName with
    | Except.ok path =>
      match applyRes path with
      | Except.error e =>
        (Except.error { chart := chartName, command := "UPGRADE", cause := e },
          [KubeAction.applyPath path])
      | Except.ok () =>
        match deleteRes secretName with
        | Except.error e =>
          (Except.error { chart := chartName, command := "UPGRADE", cause := e },
            [KubeAction.applyPath path, KubeAction.deleteSecret secretName])
        | Except.ok () =>
          (Except.ok (), [KubeAction.applyPath path, KubeAction.deleteSecret secretName])
    | Except.error e =>
      if containsSub e.toLower "no content" then
        match deleteRes secretName with
        | Except.ok () => (Except.ok (), [KubeAction.deleteSecret secretName])
        | Except.error e2 =>
          (Except.error { chart := chartName, command := "UPGRADE", cause := e2 },
            [KubeAction.deleteSecret secretName])
      else
        (Except.error
          { chart := chartName, command := "UPGRADE"
            cause := { full_details := e, message_safe := some e } }, [])
  else (Except.ok (), [])

/-- Sequential processing of the secret list, aborting at the first error. -/
def processBackupSecrets (chartName : String)
    (createYamlFromSecret : String → Except String String)
    (applyRes deleteRes : String → Except CommandError Unit) :
    List String → Except HelmError Unit × List KubeAction
  | [] => (Except.ok (), [])
  | s :: rest =>
    match processBackupSecret chartName createYamlFromSecret applyRes deleteRes s with
    | (Except.ok (), acts) =>
      let next := processBackupSecrets chartName createYamlFromSecret applyRes deleteRes rest
      (next.1, acts ++ next.2)
    | (Except.error e, acts) => (Except.error e, acts)

/-- Embedding of `apply_chart_backup` (helm_utils.rs lines 155-233).
`getSecrets` is the outcome of `kubectl_exec_get_secrets`, giving the names of
the cluster secrets of the chart namespace. -/
def apply_chart_backup (chartName : String)
    (getSecrets : Except CommandError (List String))
    (createYamlFromSecret : String → Except String String)
    (applyRes deleteRes : String → Except CommandError Unit) :
    Except HelmError Unit × List KubeAction :=
  match getSecrets with
  | Except.error e =>
    (Except.error { chart := chartName, command := "UPGRADE", cause := e }, [])
  | Except.ok secretNames =>
    processBackupSecrets chartName createYamlFromSecret applyRes deleteRes secretNames

/-- A collected backup keeps the name of the resource it came from. -/
theorem mem_collectBackups (g : String → Except CommandError String)
    (rs : List String) (b : Backup) (hb : b ∈ collectBackups g rs) : b.name ∈ rs := by
  obtain ⟨r, hr, hf⟩ := List.mem_filterMap.mp hb
  cases hg : g r with
  | ok content =>
    rw [hg] at hf
    by_cases hc : containsSub content.toLower "no resources found"
    · simp [hc] at hf
    · simp [hc] at hf
      rw [← hf]
      exact hr
  | error e =>
    rw [hg] at hf
    simp at hf

/-- Every backup file produced by the second loop is named after one of the
collected backups. -/
theorem mkBackupInfos_names (chartName : String)
    (cf : String → String → Except String String) :
    ∀ bs infos, mkBackupInfos chartName cf bs = Except.ok infos →
      ∀ i ∈ infos, ∃ b ∈ bs, i.name = b.name := by
  intro bs
  induction bs with
  | nil =>
    intro infos h i hi
    rw [mkBackupInfos] at h
    cases h
    simp at hi
  | cons b rest ih =>
    intro infos h i hi
    rw [mkBackupInfos] at h
    split_ifs at h with hcond
    · cases hcf : cf b.name b.content with
      | ok path =>
        rw [hcf] at h
        cases hrest : mkBackupInfos chartName cf rest with
        | ok infos0 =>
          rw [hrest] at h
          simp only [Except.map] at h
          cases h
          rcases List.mem_cons.mp hi with hh | hh
          · exact ⟨b, List.mem_cons_self b rest, by rw [hh]⟩
          · obtain ⟨b2, hb2, hn⟩ := ih infos0 hrest i hh
            exact ⟨b2, List.mem_cons_of_mem b hb2, hn⟩
        | error e =>
          rw [hrest] at h
          simp only [Except.map] at h
          exact Except.noConfusion h
      | error e =>
        rw [hcf] at h
        exact Except.noConfusion h
    · obtain ⟨b2, hb2, hn⟩ := ih infos h i hi
      exact ⟨b2, List.mem_cons_of_mem b hb2, hn⟩

/-- Every kubectl action issued by the third loop is the creation of a secret
named `<chart-name>-<info-name>-q-backup` whose data key is the info name. -/
theorem storeBackupInfos_actions (chartName : String)
    (rl tf idf : String → Except String Unit)
    (cs : String → Except CommandError Unit) :
    ∀ infos, ∀ a ∈ (storeBackupInfos chartName rl tf idf cs infos).2,
      ∃ i ∈ infos,
        a = KubeAction.createSecret (chartName ++ "-" ++ i.name ++ "-q-backup") i.name := by
  intro infos
  induction infos with
  | nil =>
    intro a ha
    rw [storeBackupInfos] at ha
    simp at ha
  | cons info rest ih =>
    intro a ha
    cases h1 : rl info.path with
    | error e =>
      simp only [storeBackupInfos, h1] at ha
      simp at ha
    | ok u1 =>
      cases u1
      cases h2 : tf info.path with
      | error e =>
        simp only [storeBackupInfos, h1, h2] at ha
        simp at ha
      | ok u2 =>
        cases u2
        cases h3 : idf info.path with
        | error e =>
          simp only [storeBackupInfos, h1, h2, h3] at ha
          simp at ha
        | ok u3 =>
          cases u3
          cases h4 : cs (chartName ++ "-" ++ info.name ++ "-q-backup") with
          | error e =>
            simp only [storeBackupInfos, h1, h2, h3, h4] at ha
            simp at ha
            exact ⟨info, List.mem_cons_self info rest, ha⟩
          | ok u4 =>
            cases u4
            simp only [storeBackupInfos, h1, h2, h3, h4] at ha
            simp only [List.mem_cons] at ha
            rcases ha with hh | hh
            · exact ⟨info, List.mem_cons_self info rest, hh⟩
            · obtain ⟨i2, hi2, he⟩ := ih a hh
              exact ⟨i2, List.mem_cons_of_mem info hi2, he⟩

/-- A successfully processed matching secret is deleted, and when its content was
restored from a file the trace is exactly: apply the file, then delete the
secret. -/
theorem processBackupSecret_deletes (chartName : String)
    (cy : String → Except String String) (ap de : String → Except CommandError Unit)
    (s : String) (acts : List KubeAction)
    (hmatch : containsSub s "-q-backup" = true)
    (h : processBackupSecret chartName cy ap de s = (Except.ok (), acts)) :
    KubeAction.deleteSecret s ∈ acts ∧
    (∀ p, cy s = Except.ok p →
      acts = [KubeAction.applyPath p, KubeAction.deleteSecret s]) := by
  cases hcy : cy s with
  | ok path =>
    cases hap : ap path with
    | error e =>
      simp only [processBackupSecret, hmatch, if_true, hcy, hap] at h
      exact absurd (congrArg Prod.fst h) (by simp)
    | ok u1 =>
      cases u1
      cases hde : de s with
      | error e =>
        simp only [processBackupSecret, hmatch, if_true, hcy, hap, hde] at h
        exact absurd (congrArg Prod.fst h) (by simp)
      | ok u2 =>
        cases u2
        simp only [processBackupSecret, hmatch, if_true, hcy, hap, hde] at h
        injection h with h1 h2
        refine ⟨?_, ?_⟩
        · rw [← h2]; simp
        · intro p hp
          injection hp with hpe
          subst hpe
          exact h2.symm
  | error e =>
    by_cases hnc : containsSub e.toLower "no content"
    · cases hde : de s with
      | ok u1 =>
        cases u1
        simp only [processBackupSecret, hmatch, if_true, hcy, hnc, hde] at h
        injection h with h1 h2
        refine ⟨?_, ?_⟩
        · rw [← h2]; simp
        · intro p hp
          exact Except.noConfusion hp
      | error e2 =>
        simp only [processBackupSecret, hmatch, if_true, hcy, hnc, hde] at h
        exact absurd (congrArg Prod.fst h) (by simp)
    · simp only [processBackupSecret, hmatch, if_true, hcy] at h
      rw [if_neg hnc] at h
      exact absurd (congrArg Prod.fst h) (by simp)

/-- In a fully successful `apply_chart_backup` pass, the action trace contains,
for every secret of the list, a contiguous sub-trace produced by that secret. -/
theorem processBackupSecrets_trace (chartName : String)
    (cy : String → Except String String) (ap de : String → Except CommandError Unit) :
    ∀ ss, (processBackupSecrets chartName cy ap de ss).1 = Except.ok () →
      ∀ s ∈ ss, ∃ pre post sacts,
        processBackupSecret chartName cy ap de s = (Except.ok (), sacts) ∧
        (processBackupSecrets chartName cy ap de ss).2 = pre ++ (sacts ++ post) := by
  intro ss
  induction ss with
  | nil =>
    intro _ s hs
    simp at hs
  | cons hd rest ih =>
    intro hok s hs
    cases hres : processBackupSecret chartName cy ap de hd with
    | mk res acts =>
      cases res with
      | error e =>
        rw [processBackupSecrets, hres] at hok
        exact Except.noConfusion hok
      | ok u =>
        cases u
        have hrest : (processBackupSecrets chartName cy ap de rest).1 = Except.ok () := by
          rw [processBackupSecrets, hres] at hok
          exact hok
        rcases List.mem_cons.mp hs with hh | hh
        · subst hh
          refine ⟨[], (processBackupSecrets chartName cy ap de rest).2, acts, hres, ?_⟩
          rw [processBackupSecrets, hres]
          simp
        · obtain ⟨pre, post, sacts, hps, htr⟩ := ih hrest s hh
          refine ⟨acts ++ pre, post, sacts, hps, ?_⟩
          rw [processBackupSecrets, hres]
          simp [htr]

/-! ## Claim C8 -/

/-- C8: every backup secret created by `prepare_chart_backup` for a chart named
`chartName` and a backed-up resource named `r` is keyed exactly
`<chart-name>-<resource-name>-q-backup`; and in a successful `apply_chart_backup`
pass over the namespace secrets, every secret whose name contains `-q-backup` is
deleted, the deletion coming right after the successful apply of its restored
content whenever the content was written to a file. -/
theorem chart_backup_secret_lifecycle (chartName : String)
    (getResourceYaml : String → Except CommandError String)
    (createYamlBackupFile : String → String → Except String String)
    (removeLines truncateFile indentFile : String → Except String Unit)
    (createSecretRes : String → Except CommandError Unit)
    (backup_resources : List String)
    (secretItems : List String)
    (createYamlFromSecret : String → Except String String)
    (applyRes deleteRes : String → Except CommandError Unit)
    (happly : (apply_chart_backup chartName (Except.ok secretItems)
      createYamlFromSecret applyRes deleteRes).1 = Except.ok ())
    (s : String) (hs : s ∈ secretItems)
    (hmatch : containsSub s "-q-backup" = true) :
    (∀ a ∈ (prepare_chart_backup chartName getResourceYaml createYamlBackupFile
        removeLines truncateFile indentFile createSecretRes backup_resources).2,
      ∃ r ∈ backup_resources,
        a = KubeAction.createSecret (chartName ++ "-" ++ r ++ "-q-backup") r) ∧
    KubeAction.deleteSecret s ∈ (apply_chart_backup chartName (Except.ok secretItems)
      createYamlFromSecret applyRes deleteRes).2 ∧
    (∀ p, createYamlFromSecret s = Except.ok p →
      ∃ pre post, (apply_chart_backup chartName (Except.ok secretItems)
          createYamlFromSecret applyRes deleteRes).2 =
        pre ++ ([KubeAction.applyPath p, KubeAction.deleteSecret s] ++ post)) := by
  have happly2 : (processBackupSecrets chartName createYamlFromSecret applyRes
      deleteRes secretItems).1 = Except.ok () := happly
  obtain ⟨pre, post, sacts, hps, htr⟩ :=
    processBackupSecrets_trace chartName createYamlFromSecret applyRes deleteRes
      secretItems happly2 s hs
  have hdel := processBackupSecret_deletes chartName createYamlFromSecret applyRes
    deleteRes s sacts hmatch hps
  refine ⟨?_, ?_, ?_⟩
  · intro a ha
    have ha2 : a ∈ (let backups := collectBackups getResourceYaml backup_resources
        if backups.isEmpty then
          ((Except.ok [] : Except HelmError (List BackupInfos)), ([] : List KubeAction))
        else
          match mkBackupInfos chartName createYamlBackupFile backups with
          | Except.error e => (Except.error e, [])
          | Except.ok backup_infos =>
            match storeBackupInfos chartName removeLines truncateFile indentFile
                createSecretRes backup_infos with
            | (Except.ok (), acts) => (Except.ok backup_infos, acts)
            | (Except.error e, acts) => (Except.error e, acts)).2 := ha
    simp only [] at ha2
    by_cases hemp : (collectBackups getResourceYaml backup_resources).isEmpty
    · rw [if_pos hemp] at ha2
      simp at ha2
    · rw [if_neg hemp] at ha2
      cases hmk : mkBackupInfos chartName createYamlBackupFile
          (collectBackups getResourceYaml backup_resources) with
      | error e =>
        rw [hmk] at ha2
        simp at ha2
      | ok backup_infos =>
        simp only [hmk] at ha2
        have ha3 : a ∈ (storeBackupInfos chartName removeLines truncateFile indentFile
            createSecretRes backup_infos).2 := by
          rcases hst : storeBackupInfos chartName removeLines truncateFile indentFile
              createSecretRes backup_infos with ⟨res, acts⟩
          simp only [hst] at ha2
          cases res with
          | ok u => cases u; exact ha2
          | error e => exact ha2
        obtain ⟨i, hi, he⟩ := storeBackupInfos_actions chartName removeLines
          truncateFile indentFile createSecretRes backup_infos a ha3
        obtain ⟨b, hb, hn⟩ := mkBackupInfos_names chartName createYamlBackupFile
          (collectBackups getResourceYaml backup_resources) backup_infos hmk i hi
        refine ⟨i.name, ?_, he⟩
        rw [hn]
        exact mem_collectBackups getResourceYaml backup_resources b hb
  · show KubeAction.deleteSecret s ∈ (processBackupSecrets chartName
        createYamlFromSecret applyRes deleteRes secretItems).2
    rw [htr]
    exact List.mem_append_right _ (List.mem_append_left _ hdel.1)
  · intro p hp
    refine ⟨pre, post, ?_⟩
    show (processBackupSecrets chartName createYamlFromSecret applyRes deleteRes
        secretItems).2 = _
    rw [htr, hdel.2 p hp]

/-- C8, witness: a one-resource, one-secret concrete run. -/
theorem chart_backup_secret_lifecycle_witness :
    KubeAction.deleteSecret "loki-pdb-q-backup" ∈
      (apply_chart_backup "loki" (Except.ok ["loki-pdb-q-backup"])
        (fun _ => Except.ok "g.yaml") (fun _ => Except.ok ())
        (fun _ => Except.ok ())).2 ∧
    (∃ pre post, (apply_chart_backup "loki" (Except.ok ["loki-pdb-q-backup"])
        (fun _ => Except.ok "g.yaml") (fun _ => Except.ok ())
        (fun _ => Except.ok ())).2 =
      pre ++ ([KubeAction.applyPath "g.yaml",
        KubeAction.deleteSecret "loki-pdb-q-backup"] ++ post)) := by
  have h := chart_backup_secret_lifecycle "loki"
    (fun _ => Except.ok "content") (fun _ _ => Except.ok "f.yaml")
    (fun _ => Except.ok ()) (fun _ => Except.ok ()) (fun _ => Except.ok ())
    (fun _ => Except.ok ()) ["pdb"] ["loki-pdb-q-backup"]
    (fun _ => Except.ok "g.yaml") (fun _ => Except.ok ()) (fun _ => Except.ok ())
    rfl "loki-pdb-q-backup" (by simp) rfl
  exact ⟨h.2.1, h.2.2 "g.yaml" rfl⟩

end QoveryEngine
